import Mathlib

/-!
# Verification of `testers/webserv_tester.py`

A shallow embedding of the test-orchestration harness `webserv_tester.py`.
Configuration text is modelled as `List Char`; the regular-expression
operations used by the script (`re.split(r"server\s*{", ...)`,
`re.findall(r"listen\s+(\d+);", ...)`, `re.findall(r"server_name\s+([^;]+);", ...)`
and `str.split()`) are implemented directly with leftmost, non-overlapping,
greedy-with-backtracking match semantics, specialised to those patterns.
`\s` and `str.split`'s whitespace class are modelled by the six ASCII
whitespace characters, which is the character class relevant to the
configuration grammar.

External effects (reading the configuration file, spawning shell commands)
are modelled by explicit outcome types: `ReadOutcome` for the configuration
read, `ExecOutcome` for one `subprocess.run` invocation.  The control loop
of `main` is modelled as the ordered trace of observable events (file
writes and command invocations) it performs, together with the process
exit code.
-/

namespace Webserv

/-- The ASCII whitespace characters, the subset of Python's `\s`
(and of `str.split()`'s separator class) relevant to the grammar. -/
def isSpaceChar (c : Char) : Bool :=
  c = ' ' || c = '\t' || c = '\n' || c = '\x0b' || c = '\x0c' || c = '\r'

/-- Match a literal character sequence `ps` at the head of `cs`;
on success return the remainder of `cs`. -/
def dropLit : List Char → List Char → Option (List Char)
  | [], cs => some cs
  | _ :: _, [] => none
  | p :: ps, c :: cs => if c = p then dropLit ps cs else none

theorem dropLit_length {ps : List Char} :
    ∀ {cs r : List Char}, dropLit ps cs = some r → r.length + ps.length = cs.length := by
  induction ps with
  | nil =>
    intro cs r h
    simp only [dropLit, Option.some.injEq] at h
    simp [h]
  | cons p ps ih =>
    intro cs r h
    match cs with
    | [] => simp [dropLit] at h
    | c :: cs' =>
      simp only [dropLit] at h
      split at h
      · have := ih h
        simp only [List.length_cons]
        omega
      · exact absurd h (by simp)

/-- Match the block-opening token `server\s*{` at the head of `cs`
(the literal `server`, then any run of whitespace, then `{`);
on success return the text after the `{`. -/
def matchServerOpen (cs : List Char) : Option (List Char) :=
  match dropLit ("server".toList) cs with
  | none => none
  | some r =>
    match r.dropWhile isSpaceChar with
    | [] => none
    | c :: r2 => if c = '\x7b' then some r2 else none

theorem matchServerOpen_lt {cs r : List Char} (h : matchServerOpen cs = some r) :
    r.length < cs.length := by
  unfold matchServerOpen at h
  cases hd : dropLit ("server".toList) cs with
  | none => rw [hd] at h; exact absurd h (by simp)
  | some r1 =>
    rw [hd] at h
    dsimp only at h
    have h1 := dropLit_length hd
    have h6 : ("server".toList).length = 6 := by decide
    rw [h6] at h1
    have h2 : (r1.dropWhile isSpaceChar).length ≤ r1.length :=
      (List.dropWhile_sublist _).length_le
    cases hw : r1.dropWhile isSpaceChar with
    | nil => rw [hw] at h; exact absurd h (by simp)
    | cons c r2 =>
      rw [hw] at h
      rw [hw] at h2
      dsimp only at h
      simp only [List.length_cons] at h2
      split at h
      · cases h
        omega
      · exact absurd h (by simp)

/-- `re.split(r"server\s*{", content)`: scan left to right for
non-overlapping occurrences of the block-opening token, returning the
text segments around the matches (the match text itself is discarded). -/
def splitServerAux (cs acc : List Char) : List (List Char) :=
  match h : matchServerOpen cs with
  | some rest => acc.reverse :: splitServerAux rest []
  | none =>
    match cs with
    | [] => [acc.reverse]
    | c :: cs' => splitServerAux cs' (c :: acc)
termination_by cs.length
decreasing_by
  · exact matchServerOpen_lt h
  · simp

def splitServerBlocks (cs : List Char) : List (List Char) :=
  splitServerAux cs []

/-- Match `listen\s+(\d+);` at the head of `cs`: the literal `listen`, at
least one whitespace character, a maximal non-empty digit run (the capture),
then `;`.  On success return the captured digits and the remainder after
the `;`.  For this pattern the greedy/backtracking regex semantics are
deterministic, because whitespace, digits and `;` are disjoint classes. -/
def matchListen (cs : List Char) : Option (List Char × List Char) :=
  match dropLit ("listen".toList) cs with
  | none => none
  | some r =>
    match r with
    | [] => none
    | c0 :: _ =>
      if isSpaceChar c0 then
        match (r.dropWhile isSpaceChar).takeWhile Char.isDigit with
        | [] => none
        | _ :: _ =>
          match (r.dropWhile isSpaceChar).dropWhile Char.isDigit with
          | [] => none
          | c :: r4 =>
            if c = ';' then some ((r.dropWhile isSpaceChar).takeWhile Char.isDigit, r4)
            else none
      else none

theorem matchListen_lt {cs : List Char} {ds r : List Char}
    (h : matchListen cs = some (ds, r)) : r.length < cs.length := by
  unfold matchListen at h
  cases hd : dropLit ("listen".toList) cs with
  | none => rw [hd] at h; exact absurd h (by simp)
  | some r1 =>
    rw [hd] at h
    dsimp only at h
    have h1 := dropLit_length hd
    have h6 : ("listen".toList).length = 6 := by decide
    rw [h6] at h1
    cases r1 with
    | nil => exact absurd h (by simp)
    | cons c0 rt =>
      dsimp only at h
      split at h
      case isTrue =>
        have h2 : ((c0 :: rt).dropWhile isSpaceChar).length ≤ (c0 :: rt).length :=
          (List.dropWhile_sublist _).length_le
        have h3 : (((c0 :: rt).dropWhile isSpaceChar).dropWhile Char.isDigit).length ≤
            ((c0 :: rt).dropWhile isSpaceChar).length :=
          (List.dropWhile_sublist _).length_le
        split at h
        · exact absurd h (by simp)
        · split at h
          · exact absurd h (by simp)
          case h_2 c r4 heq =>
            split at h
            · cases h
              rw [heq] at h3
              simp only [List.length_cons] at h1 h2 h3 ⊢
              omega
            · exact absurd h (by simp)
      case isFalse => exact absurd h (by simp)

/-- All captures of `re.findall(r"listen\s+(\d+);", cs)`, scanning left to
right, continuing after each non-overlapping match. -/
def findListens (cs : List Char) : List (List Char) :=
  match h : matchListen cs with
  | some (ds, rest) => ds :: findListens rest
  | none =>
    match cs with
    | [] => []
    | _ :: cs' => findListens cs'
termination_by cs.length
decreasing_by
  · exact matchListen_lt h
  · simp

/-- Match `server_name\s+([^;]+);` at the head of `cs`.  The greedy `\s+`
takes the maximal whitespace run and `([^;]+)` the maximal `;`-free run
before a `;`; when that run would be empty (the whitespace is immediately
followed by `;`), the regex engine backtracks one character of `\s+` into
the capture, which therefore needs the whitespace run to have length at
least two.  On success return the capture and the remainder after `;`. -/
def matchServerName (cs : List Char) : Option (List Char × List Char) :=
  match dropLit ("server_name".toList) cs with
  | none => none
  | some r =>
    match r.takeWhile isSpaceChar with
    | [] => none
    | _ :: _ =>
      match (r.dropWhile isSpaceChar).dropWhile (fun c => !(c = ';')) with
      | [] => none
      | c :: r4 =>
        if c = ';' then
          match (r.dropWhile isSpaceChar).takeWhile (fun c => !(c = ';')) with
          | [] =>
            if 2 ≤ (r.takeWhile isSpaceChar).length then
              some ((r.takeWhile isSpaceChar).drop ((r.takeWhile isSpaceChar).length - 1), r4)
            else none
          | c2 :: cap2 => some (c2 :: cap2, r4)
        else none

theorem matchServerName_lt {cs : List Char} {nm r : List Char}
    (h : matchServerName cs = some (nm, r)) : r.length < cs.length := by
  unfold matchServerName at h
  cases hd : dropLit ("server_name".toList) cs with
  | none => rw [hd] at h; exact absurd h (by simp)
  | some r1 =>
    rw [hd] at h
    dsimp only at h
    have h1 := dropLit_length hd
    have h11 : ("server_name".toList).length = 11 := by decide
    rw [h11] at h1
    have h2 : (r1.dropWhile isSpaceChar).length ≤ r1.length :=
      (List.dropWhile_sublist _).length_le
    have h3 : ((r1.dropWhile isSpaceChar).dropWhile (fun c => !(c = ';'))).length ≤
        (r1.dropWhile isSpaceChar).length :=
      (List.dropWhile_sublist _).length_le
    cases hw : r1.takeWhile isSpaceChar with
    | nil => rw [hw] at h; exact absurd h (by simp)
    | cons s0 st =>
      rw [hw] at h
      cases hq : (r1.dropWhile isSpaceChar).dropWhile (fun c => !(c = ';')) with
      | nil => rw [hq] at h; exact absurd h (by simp)
      | cons c r4 =>
        rw [hq] at h
        rw [hq] at h3
        dsimp only at h
        simp only [List.length_cons] at h3
        split at h
        · split at h
          · split at h
            · cases h; omega
            · exact absurd h (by simp)
          · cases h; omega
        · exact absurd h (by simp)

/-- All captures of `re.findall(r"server_name\s+([^;]+);", cs)`. -/
def findServerNames (cs : List Char) : List (List Char) :=
  match h : matchServerName cs with
  | some (nm, rest) => nm :: findServerNames rest
  | none =>
    match cs with
    | [] => []
    | _ :: cs' => findServerNames cs'
termination_by cs.length
decreasing_by
  · exact matchServerName_lt h
  · simp

/-- Python's `str.split()`: split on runs of whitespace, discarding empty
pieces (so leading/trailing whitespace yields nothing). -/
def splitWs (cs : List Char) : List (List Char) :=
  match cs with
  | [] => []
  | c :: rest =>
    if isSpaceChar c then splitWs rest
    else (c :: rest.takeWhile (fun d => !isSpaceChar d)) ::
      splitWs (rest.dropWhile (fun d => !isSpaceChar d))
termination_by cs.length
decreasing_by
  · simp
  · exact Nat.lt_succ_of_le (List.dropWhile_sublist _).length_le

/-- Python's `int` on a captured digit string. -/
def digitsToNat (l : List Char) : Nat :=
  l.foldl (fun a c => 10 * a + (c.toNat - 48)) 0

/-- One parsed `server { ... }` block: its `listen` ports and the names of
its first `server_name` directive. -/
structure ServerDescriptor where
  ports : List Int
  server_names : List String
deriving Repr, DecidableEq

/-- The per-block extraction in `parse_config`:
`ports = [int(p) for p in re.findall(r"listen\s+(\d+);", block)]` and
`server_names = names[0].split() if names else []` where
`names = re.findall(r"server_name\s+([^;]+);", block)`. -/
def parseBlock (block : List Char) : ServerDescriptor :=
  { ports := (findListens block).map (fun ds => (digitsToNat ds : Int))
  , server_names :=
      match findServerNames block with
      | [] => []
      | cap :: _ => (splitWs cap).map (fun w => String.mk w) }

/-- The pure part of `parse_config`: split the text on `server\s*{`,
discard the segment before the first match (`[1:]`), and extract a
descriptor from every remaining segment. -/
def parseContent (content : List Char) : List ServerDescriptor :=
  ((splitServerBlocks content).drop 1).map parseBlock

/-- Outcome of the attempt to read the configuration file:
it is read in full, the file is missing (`FileNotFoundError`), or some
other exception is raised while reading. -/
inductive ReadOutcome where
  | ok (content : List Char)
  | notFound
  | raised (msg : String)

/-- `parse_config`: on a successful read, extract the descriptors (the
extraction itself raises nothing); on `FileNotFoundError` or any other
exception, log and `sys.exit(1)`, modelled as `Except.error 1`. -/
def parse_config : ReadOutcome → Except Nat (List ServerDescriptor)
  | .ok content => .ok (parseContent content)
  | .notFound => .error 1
  | .raised _ => .error 1

/-- Outcome of one `subprocess.run(command, shell=True, ...)` call:
the process completed with an exit status and captured output, the
timeout expired (`subprocess.TimeoutExpired`), or some other exception
was raised (e.g. the shell could not be spawned). -/
inductive ExecOutcome where
  | completed (returncode : Int) (stdout stderr : String)
  | timedOut
  | raised (msg : String)

/-- `run_command`: returns `(False, stderr)` when `check` is set and the
exit status is non-zero, `(True, stdout)` otherwise; `(False, "Timeout")`
on timeout; `(False, str(e))` on any other exception.  No exception
escapes: every `ExecOutcome` is mapped to a returned pair. -/
def run_command (outcome : ExecOutcome) (check : Bool) : Bool × String :=
  match outcome with
  | .completed rc out err => if check && rc != 0 then (false, err) else (true, out)
  | .timedOut => (false, "Timeout")
  | .raised msg => (false, msg)

/-- The spec's outcome taxonomy for one executed scenario. -/
inductive Classification where
  | success
  | failure
  | timeout
  | execution_error
deriving Repr, DecidableEq

/-- The classification realised by each return branch of `run_command`:
the `(True, stdout)` branch is `success`, the checked non-zero branch is
`failure`, the `TimeoutExpired` handler is `timeout`, the generic
exception handler is `execution_error`. -/
def classify (outcome : ExecOutcome) (check : Bool) : Classification :=
  match outcome with
  | .completed rc _ _ => if check && rc != 0 then .failure else .success
  | .timedOut => .timeout
  | .raised _ => .execution_error

/-- The default value of `run_command`'s `timeout` parameter. -/
def defaultTimeout : Nat := 30

/-- One observable action of the harness: a direct file write, or one
`run_command` invocation with its command string, `check` flag and
timeout budget. -/
inductive Event where
  | write (path : String)
  | cmd (command : String) (check : Bool) (timeout : Nat)
deriving Repr, DecidableEq

/-- The `(command, test_name)` table of `run_basic_tests`. -/
def basic_tests (port : Int) : List (String × String) :=
  [ ("curl http://localhost:" ++ toString port, "Basic GET")
  , ("curl http://localhost:" ++ toString (port + 1), "Alternate Port GET")
  , ("curl -v -X POST http://localhost:" ++ toString port ++ "/uploads " ++
     "-H \"Content-Type: application/x-www-form-urlencoded\" " ++
     "--data-binary \"text=Hello%20world\"", "POST Body Size")
  , ("curl http://localhost:" ++ toString port ++ "/index.html", "Index HTML")
  , ("curl http://localhost:" ++ toString port ++ "/cgi-bin/guestbook_display.php", "CGI Route")
  , ("curl -i http://localhost:" ++ toString port ++ "/nonexistent_page.txt", "404 Error")
  , ("curl http://localhost:" ++ toString port ++ "/uploads/", "Directory Index")
  , ("curl http://localhost:" ++ toString port ++ "/cgi-bin/", "Method Restriction")
  , ("curl -X GET http://localhost:" ++ toString port ++ "/index.html", "GET Request")
  , ("curl -X POST --data \"test_data\" http://localhost:" ++ toString port ++ "/uploads",
     "POST Request")
  , ("curl -v -X DELETE \"http://127.0.0.1:" ++ toString port ++ "/delete?file=test.txt\"",
     "DELETE Request")
  , ("curl -X INVALIDMETHOD http://localhost:" ++ toString port ++ "/", "Invalid Method")
  , ("curl -X GET http://localhost:" ++ toString port ++ "/uploads/", "Autoindex")
  , ("curl -i http://127.0.0.1:" ++ toString port ++ "/redirect", "Redirection") ]

/-- The `(command, test_name)` table of `run_cgi_tests`. -/
def cgi_tests (port : Int) : List (String × String) :=
  [ ("curl -X GET http://127.0.0.1:" ++ toString port ++ "/cgi-bin/guestbook_display.php",
     "CGI GET")
  , ("curl -X POST -d \"username=TestUser\" -d \"message=Hello from curl\" " ++
     "http://127.0.0.1:" ++ toString port ++ "/cgi-bin/guestbook.php", "CGI POST")
  , ("curl -X GET http://127.0.0.1:" ++ toString port ++ "/cgi-bin/infinite.php", "CGI Timeout")
  , ("curl -i http://127.0.0.1:" ++ toString port ++ "/cgi-bin/fatal_error.php", "CGI Error") ]

/-- The `(command, test_name)` table of `run_chunked_tests`. -/
def chunked_tests (port : Int) : List (String × String) :=
  [ ("curl -v http://localhost:" ++ toString port ++ "/uploads " ++
     "-H \"Transfer-Encoding: chunked\" --data-binary \"@big.txt\"", "Chunked Binary")
  , ("curl -v http://localhost:" ++ toString port ++ "/uploads " ++
     "-H \"Transfer-Encoding: chunked\" --data-binary \"@test.txt\"", "Chunked Text")
  , ("curl -v http://localhost:" ++ toString port ++ "/uploads " ++
     "-H \"Content-Type: text/plain\" -H \"Transfer-Encoding: chunked\" " ++
     "--data-binary \"hello again from plain text\"", "Chunked Plain Text")
  , ("curl -v http://localhost:" ++ toString port ++ "/uploads " ++
     "-H \"Content-Type: application/x-www-form-urlencoded\" " ++
     "-H \"Transfer-Encoding: chunked\" " ++
     "--data-binary \"username=tester&message=chunked%20rocks\"", "Chunked Form")
  , ("curl -v http://localhost:" ++ toString port ++ "/uploads " ++
     "-H \"Transfer-Encoding: chunked\" -F \"file=@test.txt\"", "Chunked Multipart") ]

/-- The `(command, test_name)` table of `run_stress_tests`. -/
def stress_tests (port : Int) : List (String × String) :=
  [ ("siege -b -c50 -t15s http://localhost:" ++ toString port ++ "/index.html", "Stress GET") ]

/-- `for cmd, test_name in tests: run_command(cmd)` — every entry run with
the default `check=True` and the default timeout. -/
def runEach (tests : List (String × String)) : List Event :=
  tests.map (fun t => Event.cmd t.1 true defaultTimeout)

def run_basic_tests_events (port : Int) : List Event := runEach (basic_tests port)

def run_cgi_tests_events (port : Int) : List Event := runEach (cgi_tests port)

def run_chunked_tests_events (port : Int) : List Event := runEach (chunked_tests port)

def run_delete_tests_events (port : Int) : List Event :=
  [Event.cmd ("curl -v -X DELETE \"http://127.0.0.1:" ++ toString port ++
    "/delete?file=test_1.txt\"") true defaultTimeout]

/-- `run_stress_tests`: the single siege scenario, run with `check=False`
(the source comments that siege may return non-zero on completion) and —
no explicit `timeout` argument being passed — the default timeout. -/
def run_stress_tests_events (port : Int) : List Event :=
  (stress_tests port).map (fun t => Event.cmd t.1 false defaultTimeout)

/-- The file writes performed by `create_read_err_script`.  In the source,
the function's docstring says it creates `read_err.py`, but its entire
body apart from the assignment of the `script_content` string literal —
including the `open("read_err.py", "w")`, the `write` and the `chmod` —
is commented out, so the function writes nothing. -/
def create_read_err_script_writes : List String := []

/-- `run_other_tests`: call `create_read_err_script`, run the disconnect
script, the oversized-header request, and the valgrind check (the latter
with `check=False, timeout=60`). -/
def run_other_tests_events (port : Int) : List Event :=
  create_read_err_script_writes.map Event.write ++
  [ Event.cmd "python3 read_err.py" true defaultTimeout
  , Event.cmd ("curl -v -H \"Host: $(printf \x27a%.0s\x27 \x7b1..100000\x7d).testiservu1.com\" " ++
      "http://127.0.0.1:" ++ toString port ++ "/index.html") true defaultTimeout
  , Event.cmd "valgrind --leak-check=full --track-fds=yes ./webserv" false 60 ]

/-- The synthetic resolution address for the server block at (zero-based)
index `i`: `f"127.0.0.{i+1}"`. -/
def multiIp (i : Nat) : String := "127.0.0." ++ Nat.repr (i + 1)

/-- `run_multi_loop_tests`: for each descriptor (with its enumeration
index), for each of its server names, for each of its ports, run one
`curl --resolve name:port:ip http://name:port/` scenario, where `ip` is
the descriptor's synthetic address. -/
def run_multi_loop_tests_events (servers : List ServerDescriptor) : List Event :=
  servers.enum.flatMap (fun p =>
    p.2.server_names.flatMap (fun name =>
      p.2.ports.map (fun port =>
        Event.cmd ("curl --resolve " ++ name ++ ":" ++ toString port ++ ":" ++ multiIp p.1 ++
          " http://" ++ name ++ ":" ++ toString port ++ "/") true defaultTimeout)))

/-- `prepare_test_files`: the two fixture files (pseudo-random binary blob
and multi-line text file) are produced by two shell commands. -/
def prepare_test_files_events : List Event :=
  [ Event.cmd "head -c 100000 /dev/urandom > big.txt" true defaultTimeout
  , Event.cmd "yes \"this is a line of text\" | head -n 5000 > test.txt" true defaultTimeout ]

/-- Per-port scenario execution in `main`'s loop body: the six categories
in their fixed textual order. -/
def per_port_events (port : Int) : List Event :=
  run_basic_tests_events port ++ run_cgi_tests_events port ++ run_chunked_tests_events port ++
  run_delete_tests_events port ++ run_stress_tests_events port ++ run_other_tests_events port

/-- Everything `main` does after the descriptor count has been validated:
prepare fixtures, iterate descriptors and their ports running the six
categories, then the multi-host phase when more than one descriptor
was loaded. -/
def run_phase_events (servers : List ServerDescriptor) : List Event :=
  prepare_test_files_events ++
  servers.flatMap (fun s => s.ports.flatMap per_port_events) ++
  (if servers.length > 1 then run_multi_loop_tests_events servers else [])

/-- The outcome of one invocation of the harness: the ordered trace of
observable events together with the process exit (`some c` meaning
`sys.exit(c)` before the run phase, `none` a completed run). -/
structure RunOutcome where
  events : List Event
  exitCode : Option Nat
deriving Repr, DecidableEq

/-- `main`: parse the configuration (fatal exit on read errors), exit
fatally unless `1 <= len(servers) <= 3`, otherwise perform the run phase.
Scenario outcomes never influence the control flow or the exit code. -/
def main_run (r : ReadOutcome) : RunOutcome :=
  match parse_config r with
  | .error c => ⟨[], some c⟩
  | .ok servers =>
    if 1 ≤ servers.length ∧ servers.length ≤ 3 then ⟨run_phase_events servers, none⟩
    else ⟨[], some 1⟩

/-!
## Fuel-indexed evaluators

The scanners above recurse by well-founded recursion on the remaining
text, which the kernel cannot unfold during `decide`/`rfl` evaluation.
Each gets a structurally recursive twin indexed by a fuel bound, proved
equal to it whenever the fuel exceeds the text length (every scanner step
consumes at least one character).  Concrete configuration texts are
evaluated through these twins.
-/

def splitServerAuxF : Nat → List Char → List Char → List (List Char)
  | 0, _, acc => [acc.reverse]
  | fuel + 1, cs, acc =>
    match matchServerOpen cs with
    | some rest => acc.reverse :: splitServerAuxF fuel rest []
    | none =>
      match cs with
      | [] => [acc.reverse]
      | c :: rest => splitServerAuxF fuel rest (c :: acc)

theorem splitServerAux_eqF : ∀ (fuel : Nat) (cs acc : List Char), cs.length < fuel →
    splitServerAux cs acc = splitServerAuxF fuel cs acc := by
  intro fuel
  induction fuel with
  | zero => intro cs acc h; omega
  | succ fuel ih =>
    intro cs acc h
    rw [splitServerAux.eq_def]
    simp only [splitServerAuxF]
    split
    case h_1 rest heq =>
      conv_rhs => rw [heq]
      dsimp only
      rw [ih rest [] (by have := matchServerOpen_lt heq; omega)]
    case h_2 heq =>
      cases cs with
      | nil => rfl
      | cons c rest =>
        conv_rhs => rw [heq]
        dsimp only
        simp only [List.length_cons] at h
        exact ih rest (c :: acc) (by omega)

def findListensF : Nat → List Char → List (List Char)
  | 0, _ => []
  | fuel + 1, cs =>
    match matchListen cs with
    | some (ds, rest) => ds :: findListensF fuel rest
    | none =>
      match cs with
      | [] => []
      | _ :: rest => findListensF fuel rest

theorem findListens_eqF : ∀ (fuel : Nat) (cs : List Char), cs.length < fuel →
    findListens cs = findListensF fuel cs := by
  intro fuel
  induction fuel with
  | zero => intro cs h; omega
  | succ fuel ih =>
    intro cs h
    rw [findListens.eq_def]
    simp only [findListensF]
    split
    case h_1 ds rest heq =>
      conv_rhs => rw [heq]
      dsimp only
      rw [ih rest (by have := matchListen_lt heq; omega)]
    case h_2 heq =>
      cases cs with
      | nil => rfl
      | cons c rest =>
        conv_rhs => rw [heq]
        dsimp only
        simp only [List.length_cons] at h
        exact ih rest (by omega)

def findServerNamesF : Nat → List Char → List (List Char)
  | 0, _ => []
  | fuel + 1, cs =>
    match matchServerName cs with
    | some (nm, rest) => nm :: findServerNamesF fuel rest
    | none =>
      match cs with
      | [] => []
      | _ :: rest => findServerNamesF fuel rest

theorem findServerNames_eqF : ∀ (fuel : Nat) (cs : List Char), cs.length < fuel →
    findServerNames cs = findServerNamesF fuel cs := by
  intro fuel
  induction fuel with
  | zero => intro cs h; omega
  | succ fuel ih =>
    intro cs h
    rw [findServerNames.eq_def]
    simp only [findServerNamesF]
    split
    case h_1 nm rest heq =>
      conv_rhs => rw [heq]
      dsimp only
      rw [ih rest (by have := matchServerName_lt heq; omega)]
    case h_2 heq =>
      cases cs with
      | nil => rfl
      | cons c rest =>
        conv_rhs => rw [heq]
        dsimp only
        simp only [List.length_cons] at h
        exact ih rest (by omega)

def splitWsF : Nat → List Char → List (List Char)
  | 0, _ => []
  | fuel + 1, cs =>
    match cs with
    | [] => []
    | c :: rest =>
      if isSpaceChar c then splitWsF fuel rest
      else (c :: rest.takeWhile (fun d => !isSpaceChar d)) ::
        splitWsF fuel (rest.dropWhile (fun d => !isSpaceChar d))

theorem splitWs_eqF : ∀ (fuel : Nat) (cs : List Char), cs.length < fuel →
    splitWs cs = splitWsF fuel cs := by
  intro fuel
  induction fuel with
  | zero => intro cs h; omega
  | succ fuel ih =>
    intro cs h
    rw [splitWs.eq_def]
    simp only [splitWsF]
    cases cs with
    | nil => rfl
    | cons c rest =>
      simp only [List.length_cons] at h
      dsimp only
      by_cases hc : isSpaceChar c
      · rw [if_pos hc, if_pos hc, ih rest (by omega)]
      · rw [if_neg hc, if_neg hc]
        have hle : (rest.dropWhile (fun d => !isSpaceChar d)).length ≤ rest.length :=
          (List.dropWhile_sublist _).length_le
        rw [ih (rest.dropWhile (fun d => !isSpaceChar d)) (by omega)]

/-- `parseBlock` computed through the fuel-indexed scanners. -/
def parseBlockF (block : List Char) : ServerDescriptor :=
  { ports := (findListensF (block.length + 1) block).map (fun ds => (digitsToNat ds : Int))
  , server_names :=
      match findServerNamesF (block.length + 1) block with
      | [] => []
      | cap :: _ => (splitWsF (cap.length + 1) cap).map (fun w => String.mk w) }

theorem parseBlock_eqF (block : List Char) : parseBlock block = parseBlockF block := by
  unfold parseBlock parseBlockF
  rw [findListens_eqF (block.length + 1) block (by omega)]
  rw [findServerNames_eqF (block.length + 1) block (by omega)]
  cases findServerNamesF (block.length + 1) block with
  | nil => rfl
  | cons cap rest =>
    dsimp only
    rw [splitWs_eqF (cap.length + 1) cap (by omega)]

/-- `parseContent` computed through the fuel-indexed scanners. -/
def parseContentF (content : List Char) : List ServerDescriptor :=
  ((splitServerAuxF (content.length + 1) content []).drop 1).map parseBlockF

theorem parseContent_eqF (content : List Char) : parseContent content = parseContentF content := by
  unfold parseContent parseContentF splitServerBlocks
  rw [splitServerAux_eqF (content.length + 1) content [] (by omega)]
  have hpb : parseBlock = parseBlockF := funext parseBlock_eqF
  rw [hpb]

/-- `main_run` on a successful read, with the parse expressed through the
fuel-indexed evaluator, so that concrete configurations compute. -/
theorem main_run_ok (content : List Char) :
    main_run (.ok content) =
      (if 1 ≤ (parseContentF content).length ∧ (parseContentF content).length ≤ 3 then
        ⟨run_phase_events (parseContentF content), none⟩
      else ⟨[], some 1⟩) := by
  unfold main_run parse_config
  dsimp only
  rw [parseContent_eqF]

/-!
## Block counting

An independent count of the (leftmost, non-overlapping) occurrences of the
block-opening token, to state that the parser yields one descriptor per
`server {` block.
-/

def countServerOpensF : Nat → List Char → Nat
  | 0, _ => 0
  | fuel + 1, cs =>
    match matchServerOpen cs with
    | some rest => countServerOpensF fuel rest + 1
    | none =>
      match cs with
      | [] => 0
      | _ :: rest => countServerOpensF fuel rest

/-- The number of non-overlapping occurrences of the block-opening token
`server\s*{` in `cs`, scanning left to right: the number of server blocks
of the configuration text. -/
def countServerOpens (cs : List Char) : Nat := countServerOpensF (cs.length + 1) cs

theorem splitServerAuxF_length : ∀ (fuel : Nat) (cs acc : List Char),
    (splitServerAuxF fuel cs acc).length = countServerOpensF fuel cs + 1 := by
  intro fuel
  induction fuel with
  | zero => intro cs acc; rfl
  | succ fuel ih =>
    intro cs acc
    simp only [splitServerAuxF, countServerOpensF]
    cases hm : matchServerOpen cs with
    | some rest =>
      dsimp only
      rw [List.length_cons, ih rest []]
    | none =>
      dsimp only
      cases cs with
      | nil => rfl
      | cons c rest => exact ih rest (c :: acc)

/-- The parser produces exactly one descriptor per occurrence of the
block-opening token. -/
theorem parseContent_length (content : List Char) :
    (parseContent content).length = countServerOpens content := by
  rw [parseContent_eqF]
  unfold parseContentF countServerOpens
  rw [List.length_map, List.length_drop, splitServerAuxF_length]
  omega

/-!
## Shape of `str.split()` output
-/

theorem splitWsF_mem : ∀ (fuel : Nat) (cs w : List Char), w ∈ splitWsF fuel cs →
    w ≠ [] ∧ ∀ c ∈ w, isSpaceChar c = false := by
  intro fuel
  induction fuel with
  | zero => intro cs w hw; simp [splitWsF] at hw
  | succ fuel ih =>
    intro cs w hw
    simp only [splitWsF] at hw
    cases cs with
    | nil => simp at hw
    | cons c rest =>
      dsimp only at hw
      by_cases hc : isSpaceChar c
      · rw [if_pos hc] at hw
        exact ih rest w hw
      · rw [if_neg hc] at hw
        rcases List.mem_cons.mp hw with hw | hw
        · subst hw
          refine ⟨by simp, ?_⟩
          intro d hd
          rcases List.mem_cons.mp hd with hd | hd
          · subst hd
            simpa using hc
          · have := List.mem_takeWhile_imp hd
            simpa using this
        · exact ih _ w hw

theorem splitWs_mem {cs w : List Char} (hw : w ∈ splitWs cs) :
    w ≠ [] ∧ ∀ c ∈ w, isSpaceChar c = false := by
  rw [splitWs_eqF (cs.length + 1) cs (by omega)] at hw
  exact splitWsF_mem (cs.length + 1) cs w hw

/-!
## Decimal rendering

`Nat.repr` (the formatting behind Python's `f"...{i+1}"` on a natural
number) is injective: distinct indices render as distinct decimal strings.
Proved by exhibiting the digit list `decDigits` produced by
`Nat.toDigitsCore` and a left inverse `decValue`.
-/

/-- The decimal digit characters of `n`, most significant first. -/
def decDigits (n : Nat) : List Char :=
  if h : n < 10 then [Nat.digitChar n]
  else decDigits (n / 10) ++ [Nat.digitChar (n % 10)]
termination_by n
decreasing_by exact Nat.div_lt_self (by omega) (by omega)

/-- Recover the value of a decimal digit string. -/
def decValue (l : List Char) : Nat :=
  l.foldl (fun a c => 10 * a + (c.toNat - 48)) 0

theorem digitChar_val : ∀ n, n < 10 → (Nat.digitChar n).toNat - 48 = n := by decide

theorem decDigits_lt {n : Nat} (h : n < 10) : decDigits n = [Nat.digitChar n] := by
  rw [decDigits.eq_def, dif_pos h]

theorem decDigits_ge {n : Nat} (h : ¬ n < 10) :
    decDigits n = decDigits (n / 10) ++ [Nat.digitChar (n % 10)] := by
  rw [decDigits.eq_def, dif_neg h]

theorem decValue_append (l : List Char) (c : Char) :
    decValue (l ++ [c]) = 10 * decValue l + (c.toNat - 48) := by
  simp [decValue, List.foldl_append]

theorem decValue_decDigits : ∀ n : Nat, decValue (decDigits n) = n := by
  intro n
  induction n using Nat.strong_induction_on with
  | _ n ih =>
    by_cases h : n < 10
    · rw [decDigits_lt h]
      simp [decValue, digitChar_val n h]
    · rw [decDigits_ge h, decValue_append]
      rw [ih (n / 10) (Nat.div_lt_self (by omega) (by omega))]
      rw [digitChar_val (n % 10) (Nat.mod_lt n (by omega))]
      omega

theorem toDigitsCore_eq_decDigits : ∀ (fuel n : Nat) (acc : List Char), n < fuel →
    Nat.toDigitsCore 10 fuel n acc = decDigits n ++ acc := by
  intro fuel
  induction fuel with
  | zero => intro n acc h; omega
  | succ fuel ih =>
    intro n acc h
    simp only [Nat.toDigitsCore]
    by_cases h10 : n / 10 = 0
    · have hn : n < 10 := by omega
      rw [if_pos h10, decDigits_lt hn, Nat.mod_eq_of_lt hn]
      rfl
    · have hn : ¬ n < 10 := by omega
      rw [if_neg h10, ih (n / 10) _ (by omega), decDigits_ge hn]
      simp

theorem repr_eq_decDigits (n : Nat) : Nat.repr n = String.mk (decDigits n) := by
  have h := toDigitsCore_eq_decDigits (n + 1) n [] (by omega)
  show (Nat.toDigitsCore 10 (n + 1) n []).asString = String.mk (decDigits n)
  rw [h]
  simp [List.asString]

theorem natRepr_injective {m n : Nat} (h : Nat.repr m = Nat.repr n) : m = n := by
  rw [repr_eq_decDigits, repr_eq_decDigits] at h
  have hd : decDigits m = decDigits n := congrArg String.data h
  have hm := decValue_decDigits m
  rw [hd, decValue_decDigits n] at hm
  omega

theorem multiIp_injective {i j : Nat} (h : multiIp i = multiIp j) : i = j := by
  unfold multiIp at h
  have hd := congrArg String.data h
  rw [String.data_append, String.data_append] at hd
  have h2 : (Nat.repr (i + 1)).data = (Nat.repr (j + 1)).data := List.append_cancel_left hd
  have h3 := natRepr_injective (String.ext h2)
  omega

/-!
## Size of the multi-host phase
-/

theorem run_multi_loop_tests_events_length (servers : List ServerDescriptor) :
    (run_multi_loop_tests_events servers).length =
      (servers.map (fun s => s.server_names.length * s.ports.length)).sum := by
  unfold run_multi_loop_tests_events
  rw [List.length_flatMap]
  have h1 : (List.length ∘ fun p : Nat × ServerDescriptor =>
      p.2.server_names.flatMap (fun name => p.2.ports.map (fun port =>
        Event.cmd ("curl --resolve " ++ name ++ ":" ++ toString port ++ ":" ++ multiIp p.1 ++
          " http://" ++ name ++ ":" ++ toString port ++ "/") true defaultTimeout))) =
      fun p : Nat × ServerDescriptor => p.2.server_names.length * p.2.ports.length := by
    funext p
    simp only [Function.comp_apply]
    rw [List.length_flatMap]
    simp [Function.comp_def, List.map_const', List.sum_replicate, smul_eq_mul]
  rw [h1]
  have h3 : servers.enum.map (fun p : Nat × ServerDescriptor =>
      p.2.server_names.length * p.2.ports.length) =
      servers.map (fun s => s.server_names.length * s.ports.length) := by
    rw [show (fun p : Nat × ServerDescriptor => p.2.server_names.length * p.2.ports.length) =
      (fun s : ServerDescriptor => s.server_names.length * s.ports.length) ∘ Prod.snd from rfl]
    rw [← List.map_map, List.enum_map_snd]
  rw [h3]

/-- `parse_config` on a successful read returns the extracted descriptors. -/
theorem parse_config_ok (content : List Char) :
    parse_config (.ok content) = .ok (parseContent content) := rfl

/-!
## The claims
-/

/-- C1: for every configuration text, `parse_config` returns exactly one
descriptor per occurrence of the block-opening token `server {`; a block's
ports are the integers of its `listen <digits>;` directives in textual
order with duplicates preserved, and its names come only from the first
`server_name` directive, split on whitespace, later ones being ignored.
Instantiated on the spec's example block and on a two-block text
exercising duplicate ports and a second (ignored) `server_name`. -/
theorem c1_parse_config_blocks :
    (∀ content : List Char, (parseContent content).length = countServerOpens content) ∧
    parseContent ("server \x7b listen 8080; listen 8081; server_name a b; \x7d".toList) =
      [⟨[8080, 8081], ["a", "b"]⟩] ∧
    parseContent (("server \x7b listen 1; server_name a; server_name b c; \x7d " ++
      "server \x7b listen 2; listen 2; \x7d").toList) =
      [⟨[1], ["a"]⟩, ⟨[2, 2], []⟩] := by
  refine ⟨parseContent_length, ?_, ?_⟩ <;> (rw [parseContent_eqF]; rfl)

/-- C2 counterexample: the stress scenario is run with `check=False`, and
under `check=False` a command completing with exit status 1 is returned by
`run_command` as succeeded (`true`) with realised classification
`success` — not `failure` as the claim states. -/
theorem c2_counterexample :
    run_stress_tests_events 8080 =
      [Event.cmd "siege -b -c50 -t15s http://localhost:8080/index.html" false 30] ∧
    run_command (.completed 1 "out" "err") false = (true, "out") ∧
    classify (.completed 1 "out" "err") false = .success ∧
    Classification.success ≠ Classification.failure :=
  ⟨rfl, rfl, rfl, by decide⟩

/-- C2 (amended): `succeeded` is true iff the realised classification is
`success`; the stress scenario is run non-strict (`check=False`), so a
non-zero exit status is recorded as `success` with `succeeded = true`
(not as `failure`), and no scenario outcome ever marks the run failed:
any configuration passing the descriptor-count gate completes with exit
code `none`, the trace being a function of the parsed descriptors
alone. -/
theorem c2_succeeded_iff_success :
    (∀ (o : ExecOutcome) (check : Bool),
      (run_command o check).1 = true ↔ classify o check = .success) ∧
    (∀ port : Int, run_stress_tests_events port =
      [Event.cmd ("siege -b -c50 -t15s http://localhost:" ++ toString port ++ "/index.html")
        false defaultTimeout]) ∧
    (∀ (rc : Int) (out err : String), classify (.completed rc out err) false = .success) ∧
    (∀ content : List Char,
      1 ≤ (parseContent content).length → (parseContent content).length ≤ 3 →
      (main_run (.ok content)).exitCode = none) := by
  refine ⟨?_, fun port => rfl, fun rc out err => rfl, ?_⟩
  · intro o check
    cases o with
    | completed rc out err =>
      unfold run_command classify
      dsimp only
      by_cases hc : (check && rc != 0) = true
      · rw [if_pos hc, if_pos hc]
        simp
      · rw [if_neg hc, if_neg hc]
        simp
    | timedOut => simp [run_command, classify]
    | raised msg => simp [run_command, classify]
  · intro content h1 h2
    unfold main_run parse_config
    dsimp only
    rw [if_pos ⟨h1, h2⟩]

theorem c2_succeeded_iff_success_witness :
    (run_command (.completed 0 "o" "e") true).1 = true ∧
    (main_run (.ok ("server \x7b listen 1; \x7d".toList))).exitCode = none := by
  constructor
  · exact (c2_succeeded_iff_success.1 (.completed 0 "o" "e") true).mpr rfl
  · exact c2_succeeded_iff_success.2.2.2 ("server \x7b listen 1; \x7d".toList)
      (by rw [parseContent_eqF]; decide) (by rw [parseContent_eqF]; decide)

/-- C3: `run_command` never lets an exception escape: the timeout handler
returns `(False, "Timeout")` with classification `timeout`, and the
generic exception handler returns `(False, str(e))` with classification
`execution_error` — in both cases control returns to the caller so the
run loop continues. -/
theorem c3_run_command_total :
    (∀ check : Bool, run_command .timedOut check = (false, "Timeout") ∧
      classify .timedOut check = .timeout) ∧
    (∀ (msg : String) (check : Bool), run_command (.raised msg) check = (false, msg) ∧
      classify (.raised msg) check = .execution_error) :=
  ⟨fun _ => ⟨rfl, rfl⟩, fun _ _ => ⟨rfl, rfl⟩⟩

/-- C4: when the parsed descriptor count is outside 1..3, `main` exits
with status 1 with an empty event trace: no fixture command, no file
write, no scenario command at all. -/
theorem c4_descriptor_count_fatal (content : List Char)
    (h : ¬ (1 ≤ (parseContent content).length ∧ (parseContent content).length ≤ 3)) :
    main_run (.ok content) = ⟨[], some 1⟩ := by
  unfold main_run parse_config
  dsimp only
  rw [if_neg h]

theorem c4_descriptor_count_fatal_witness :
    main_run (.ok ("server\x7bserver\x7bserver\x7bserver\x7b".toList)) = ⟨[], some 1⟩ :=
  c4_descriptor_count_fatal ("server\x7bserver\x7bserver\x7bserver\x7b".toList)
    (by rw [parseContent_eqF]; decide)

/-- C5: a run that passes the count gate iterates descriptors in order
and, for every port of each, emits the six categories in the fixed order
basic, cgi, chunked, delete, stress, misc — the trace is a function of
the parsed descriptors alone, so no scenario failure can cut it short —
and the multi-host phase appears iff more than one descriptor was loaded;
the spec's two-descriptor example yields the port-8080 suite twice
followed by exactly two multi-host scenarios at distinct synthetic
addresses. -/
theorem c5_iteration_order :
    (∀ content : List Char, (main_run (.ok content)).exitCode = none →
      (main_run (.ok content)).events =
        prepare_test_files_events ++
        (parseContent content).flatMap (fun s => s.ports.flatMap (fun port =>
          run_basic_tests_events port ++ run_cgi_tests_events port ++
          run_chunked_tests_events port ++ run_delete_tests_events port ++
          run_stress_tests_events port ++ run_other_tests_events port)) ++
        (if (parseContent content).length > 1 then
          run_multi_loop_tests_events (parseContent content) else [])) ∧
    (main_run (.ok (("server \x7b listen 8080; server_name a; \x7d " ++
        "server \x7b listen 8080; server_name b; \x7d").toList))).events =
      prepare_test_files_events ++ per_port_events 8080 ++ per_port_events 8080 ++
      [Event.cmd "curl --resolve a:8080:127.0.0.1 http://a:8080/" true defaultTimeout,
       Event.cmd "curl --resolve b:8080:127.0.0.2 http://b:8080/" true defaultTimeout] := by
  constructor
  · intro content h
    by_cases hc : 1 ≤ (parseContent content).length ∧ (parseContent content).length ≤ 3
    · show (main_run (.ok content)).events = _
      unfold main_run parse_config
      dsimp only
      rw [if_pos hc]
      rfl
    · exfalso
      unfold main_run parse_config at h
      dsimp only at h
      rw [if_neg hc] at h
      simp at h
  · rw [main_run_ok]
    rfl

theorem c5_iteration_order_witness :
    (main_run (.ok ("server \x7b listen 1; \x7d".toList))).events =
      prepare_test_files_events ++
      (parseContent ("server \x7b listen 1; \x7d".toList)).flatMap (fun s =>
        s.ports.flatMap (fun port =>
          run_basic_tests_events port ++ run_cgi_tests_events port ++
          run_chunked_tests_events port ++ run_delete_tests_events port ++
          run_stress_tests_events port ++ run_other_tests_events port)) ++
      (if (parseContent ("server \x7b listen 1; \x7d".toList)).length > 1 then
        run_multi_loop_tests_events (parseContent ("server \x7b listen 1; \x7d".toList))
      else []) :=
  c5_iteration_order.1 ("server \x7b listen 1; \x7d".toList) (by rw [main_run_ok]; rfl)

/-- C6: the multi-host phase assigns to the descriptor at zero-based index
`i` the synthetic address `127.0.0.(i+1)`, injectively — distinct indices
get distinct addresses; it produces exactly one resolution scenario per
(server name, port) pair of each descriptor, and a descriptor with an
empty name list contributes zero scenarios; instantiated on the
two-descriptor example and on a sequence whose first descriptor has no
names. -/
theorem c6_multi_host_resolver :
    (∀ i j : Nat, i ≠ j → multiIp i ≠ multiIp j) ∧
    (∀ servers : List ServerDescriptor, (run_multi_loop_tests_events servers).length =
      (servers.map (fun s => s.server_names.length * s.ports.length)).sum) ∧
    run_multi_loop_tests_events [⟨[8080], ["a"]⟩, ⟨[8080], ["b"]⟩] =
      [Event.cmd "curl --resolve a:8080:127.0.0.1 http://a:8080/" true defaultTimeout,
       Event.cmd "curl --resolve b:8080:127.0.0.2 http://b:8080/" true defaultTimeout] ∧
    run_multi_loop_tests_events [⟨[8080], []⟩, ⟨[9090], ["x"]⟩] =
      [Event.cmd "curl --resolve x:9090:127.0.0.2 http://x:9090/" true defaultTimeout] := by
  refine ⟨?_, run_multi_loop_tests_events_length, by rfl, by rfl⟩
  intro i j hne heq
  exact hne (multiIp_injective heq)

theorem c6_multi_host_resolver_witness : multiIp 0 ≠ multiIp 1 :=
  c6_multi_host_resolver.1 0 1 (by decide)

/-- C7 counterexample: the stress scenario for port 8080 is executed with
timeout 30 — exactly the default, not a longer category-specific budget. -/
theorem c7_counterexample :
    run_stress_tests_events 8080 =
      [Event.cmd "siege -b -c50 -t15s http://localhost:8080/index.html" false 30] ∧
    defaultTimeout = 30 ∧ ¬ 30 > defaultTimeout :=
  ⟨rfl, rfl, by decide⟩

/-- C7 (amended): `run_command`'s default timeout is 30, and every
stress-category scenario is executed with exactly this default budget (no
timeout argument is passed to it); the longer 60-unit budget belongs to
the misc category's valgrind check instead. -/
theorem c7_stress_default_timeout :
    defaultTimeout = 30 ∧
    (∀ port : Int, run_stress_tests_events port =
      [Event.cmd ("siege -b -c50 -t15s http://localhost:" ++ toString port ++ "/index.html")
        false defaultTimeout]) ∧
    (∀ port : Int, (run_other_tests_events port).getLast? =
      some (Event.cmd "valgrind --leak-check=full --track-fds=yes ./webserv" false 60)) :=
  ⟨rfl, fun _ => rfl, fun _ => rfl⟩

/-- C8 counterexample: a configuration whose `listen` directive carries a
non-numeric port parses without error — `parse_config` returns a
descriptor with the directive silently skipped, not the fatal exit the
claim asserts for malformed directive content. -/
theorem c8_counterexample :
    parse_config (.ok ("server \x7b listen abc; \x7d".toList)) = .ok [⟨[], []⟩] := by
  rw [parse_config_ok, parseContent_eqF]
  rfl

/-- C8 (amended): configuration loading exits fatally (status 1) when the
file is missing and on any other read exception; malformed directive
content such as a non-numeric port raises nothing and is silently skipped
(the block still parses, without that directive); an empty result of zero
server blocks is not an error at this layer. -/
theorem c8_fatal_on_read_errors :
    parse_config .notFound = .error 1 ∧
    (∀ msg : String, parse_config (.raised msg) = .error 1) ∧
    parse_config (.ok ("server \x7b listen abc; \x7d".toList)) = .ok [⟨[], []⟩] ∧
    parse_config (.ok ("no servers here".toList)) = .ok [] := by
  refine ⟨rfl, fun _ => rfl, ?_, ?_⟩ <;> (rw [parse_config_ok, parseContent_eqF]; rfl)

/-- C9 (code evaluation at the failing input, port 8080):
`create_read_err_script` performs no file write — its docstring says it
creates `read_err.py`, but everything in its body after the string-literal
assignment is commented out — yet the misc phase still executes
`python3 read_err.py`: the port-8080 misc trace contains the interpreter
call and no write event at all. -/
theorem c9_read_err_script_never_written :
    create_read_err_script_writes = [] ∧
    (run_other_tests_events 8080).filter (fun e => match e with
      | .write _ => true | .cmd _ _ _ => false) = [] ∧
    Event.cmd "python3 read_err.py" true defaultTimeout ∈ run_other_tests_events 8080 := by
  refine ⟨rfl, rfl, ?_⟩
  show Event.cmd "python3 read_err.py" true defaultTimeout ∈
    ([] : List Event) ++ [_, _, _]
  simp

/-- C10: every configuration text read without an I/O exception parses
normally — the fatal branch is unreachable — into a descriptor list in
which every port is a non-negative integer and every server name a
non-empty, whitespace-free string; directives that do not match the exact
patterns (`listen 127.0.0.1:8080;`, `listen abc;`) are silently
skipped. -/
theorem c10_parse_total_shape :
    (∀ content : List Char, ∃ ds, parse_config (.ok content) = .ok ds ∧
      ∀ d ∈ ds, (∀ p ∈ d.ports, 0 ≤ p) ∧
        ∀ nm ∈ d.server_names, nm.data ≠ [] ∧ ∀ c ∈ nm.data, isSpaceChar c = false) ∧
    parse_config (.ok ("server \x7b listen 127.0.0.1:8080; listen abc; \x7d".toList)) =
      .ok [⟨[], []⟩] := by
  constructor
  · intro content
    refine ⟨parseContent content, parse_config_ok content, ?_⟩
    intro d hd
    unfold parseContent at hd
    rcases List.mem_map.mp hd with ⟨b, _, rfl⟩
    constructor
    · intro p hp
      unfold parseBlock at hp
      dsimp only at hp
      rcases List.mem_map.mp hp with ⟨ds, _, rfl⟩
      exact Int.natCast_nonneg _
    · intro nm hnm
      unfold parseBlock at hnm
      dsimp only at hnm
      cases hfs : findServerNames b with
      | nil => rw [hfs] at hnm; simp at hnm
      | cons cap rest =>
        rw [hfs] at hnm
        dsimp only at hnm
        rcases List.mem_map.mp hnm with ⟨w, hw, rfl⟩
        have hsw := splitWs_mem hw
        exact ⟨hsw.1, hsw.2⟩
  · rw [parse_config_ok, parseContent_eqF]
    rfl

theorem c10_parse_total_shape_witness :
    0 ≤ (8080 : Int) ∧ ("web1" : String).data ≠ [] := by
  obtain ⟨ds, heq, hall⟩ :=
    c10_parse_total_shape.1 ("server \x7b listen 8080; server_name web1; \x7d".toList)
  have hc : parse_config (.ok ("server \x7b listen 8080; server_name web1; \x7d".toList)) =
      .ok [⟨[8080], ["web1"]⟩] := by rw [parse_config_ok, parseContent_eqF]; rfl
  rw [hc] at heq
  have hds : ds = [⟨[8080], ["web1"]⟩] := by
    cases heq
    rfl
  subst hds
  have h1 := hall ⟨[8080], ["web1"]⟩ (by simp)
  exact ⟨h1.1 8080 (by simp), (h1.2 "web1" (by simp)).1⟩

end Webserv
